import Mathlib

/-!
Verification of the asset build pipeline of the admin-system repository,
as configured in `webpack.config.js`: per-entry CSS extraction, static
asset copying, and RTL CSS generation via the custom `GenerateRTL`
compilation hook.

The repository's own logic lives in `webpack.config.js` (the `cssPairs`
table, the entry map, the extract-plugin filename template, the copy
patterns and the body of the `GenerateRTL` hook); those parts are embedded
directly from the source. The external collaborators (the rtlcss flip
library, the copy step's missing-directory handling, the sequential stage
scheduling and the final emission-to-disk semantics) are not part of this
repository; definitions for them are modelled from the spec and say so in
their doc comments.
-/

namespace AdminBuild

/-- CSS text, modelled as a list of tokens (property names, values,
punctuation). The RTL flip library rewrites individual direction-sensitive
tokens, so a token list makes "differs only in direction-sensitive tokens
and is otherwise identical" directly statable. -/
abbrev Css := List String

/-- The in-memory compilation asset collection (`compilation.assets`):
an association list from asset name to CSS content, in emission order. -/
abbrev AssetMap := List (String × Css)

/-- Key lookup on an association list; first binding wins. Models property
access `compilation.assets[name]` and directory lookup in the file-system
model. -/
def getFile {α : Type} : List (String × α) → String → Option α
  | [], _ => none
  | (k, v) :: rest, name => if name = k then some v else getFile rest name

/-- Reading `compilation.assets[pair.ltr]` in the `GenerateRTL` hook. -/
def lookupAsset (assets : AssetMap) (name : String) : Option Css :=
  getFile assets name

/-- Registering `compilation.emitAsset(name, new RawSource(content))`: adds
a new asset at the end of the collection; existing entries are untouched. -/
def emitAsset (assets : AssetMap) (name : String) (content : Css) : AssetMap :=
  assets ++ [(name, content)]

/-- One entry of the `cssPairs` table in `webpack.config.js`:
`{ ltr: ..., rtl: ... }`. -/
structure CssPair where
  ltr : String
  rtl : String

/-- The `cssPairs` table of `webpack.config.js` (lines 20-24). -/
def cssPairs : List CssPair :=
  [⟨"css/app.min.css", "css/app-rtl.min.css"⟩,
   ⟨"css/bootstrap.min.css", "css/bootstrap-rtl.min.css"⟩]

/-- The entry-point names of the `entry` map in `webpack.config.js`
(lines 28-32): `app`, `bootstrap`, `icons`. -/
def entryNames : List String := ["app", "bootstrap", "icons"]

/-- The `MiniCssExtractPlugin` filename template of `webpack.config.js`
(line 65): `css/[name].min.css`. -/
def miniCssFilename (name : String) : String :=
  "css/" ++ name ++ ".min.css"

/-- The options record accepted by the rtlcss flip library. Modelled from
the spec: "whether to auto-rename LTR/RTL class suffixes — default off;
whether to strip/clean unsupported properties — default off". -/
structure RtlcssOptions where
  autoRename : Bool
  clean : Bool

/-- Both rtlcss options at their spec defaults: off. -/
def defaultRtlcssOptions : RtlcssOptions := ⟨false, false⟩

/-- Modelled from the spec: the direction-flip ruleset of the external
rtlcss library, as (left-oriented token, right-oriented token) swaps:
`margin-left`↔`margin-right`, `left`↔`right`, border sides, border-radius
corners. The exact full rule table is delegated to the external library;
this table carries the spec's examples. -/
def directionSwaps : List (String × String) :=
  [("margin-left", "margin-right"),
   ("padding-left", "padding-right"),
   ("border-left", "border-right"),
   ("left", "right"),
   ("border-top-left-radius", "border-top-right-radius"),
   ("border-bottom-left-radius", "border-bottom-right-radius")]

/-- Flip a single token: left-oriented tokens become their right-oriented
counterparts and vice versa; every other token is returned unchanged. -/
def flipToken (t : String) : String :=
  match getFile directionSwaps t with
  | some r => r
  | none =>
    match getFile (directionSwaps.map Prod.swap) t with
    | some l => l
    | none => t

/-- A token is direction-sensitive when it appears in the swap table,
on either side. -/
def directionSensitive (t : String) : Bool :=
  (getFile directionSwaps t).isSome ||
    (getFile (directionSwaps.map Prod.swap) t).isSome

/-- Modelled from the spec: the auto-rename option of the rtlcss library
swaps LTR/RTL class-name suffixes. Off by default; the hook never enables
it. -/
def renameToken (t : String) : String :=
  if t.endsWith "-ltr" then (t.dropRight 4) ++ "-rtl"
  else if t.endsWith "-rtl" then (t.dropRight 4) ++ "-ltr"
  else t

/-- Modelled from the spec: the clean option of the rtlcss library strips
unsupported (hack-prefixed) properties. Off by default; the hook never
enables it. -/
def unsupportedToken (t : String) : Bool :=
  t.startsWith "*"

/-- Modelled from the spec: `rtlcss.process(css, options)` — the external
rtlcss flip library. It swaps direction-sensitive tokens; with
`autoRename` on it additionally swaps LTR/RTL class suffixes, and with
`clean` on it strips unsupported properties. -/
def rtlcssProcess (css : Css) (opts : RtlcssOptions) : Css :=
  let flipped := css.map flipToken
  let renamed := if opts.autoRename then flipped.map renameToken else flipped
  if opts.clean then renamed.filter (fun t => !(unsupportedToken t)) else renamed

/-- The body of the `GenerateRTL` hook (`webpack.config.js` lines 91-95),
embedded faithfully: for each pair it reads
`compilation.assets[pair.ltr].source()` WITHOUT checking that the asset
exists — when the asset is absent, indexing yields `undefined` and calling
`.source()` throws, aborting the `forEach` and failing the compilation;
this is modelled as `Except.error` carrying the missing asset name.
Otherwise it emits `rtlcss.process(ltrCss, { autoRename: false,
clean: false })` under the pair's rtl name. -/
def generateRTL : List CssPair → AssetMap → Except String AssetMap
  | [], assets => Except.ok assets
  | pair :: rest, assets =>
    match lookupAsset assets pair.ltr with
    | none => Except.error pair.ltr
    | some ltrCss =>
      generateRTL rest (emitAsset assets pair.rtl (rtlcssProcess ltrCss ⟨false, false⟩))

/-- Modelled from the spec: the compile-and-extract stage. Each entry point
is compiled by the external preprocessor (`compile`, an external
collaborator taken as a parameter) and extracted into one asset named by
the `MiniCssExtractPlugin` template. -/
def extractStage (compile : String → Css) (entries : List String) : AssetMap :=
  entries.map (fun n => (miniCssFilename n, compile n))

/-- Modelled from the spec: the sequential pipeline ordering — the
`GenerateRTL` hook (registered at `PROCESS_ASSETS_STAGE_ADDITIONAL` on
`processAssets`) runs on the asset collection produced after all entry
points have been compiled and extracted. -/
def buildAssets (compile : String → Css) (entries : List String)
    (pairs : List CssPair) : Except String AssetMap :=
  generateRTL pairs (extractStage compile entries)

/-- A copied directory tree: relative file path to file bytes. -/
abbrev DirTree := List (String × String)

/-- One `{ from, to }` pattern of the `CopyWebpackPlugin` configuration. -/
structure CopyPattern where
  src : String
  dst : String

/-- The `folder.src_assets` path constant of `webpack.config.js`. -/
def folderSrcAssets : String := "./src/assets/"

/-- The `folder.dist_assets` path constant of `webpack.config.js`. -/
def folderDistAssets : String := "./static/assets/"

/-- The `CopyWebpackPlugin` patterns of `webpack.config.js` (lines 67-74):
images, js, and the libs directory listed twice with identical source and
destination. -/
def copyPatterns : List CopyPattern :=
  [⟨folderSrcAssets ++ "images", folderDistAssets ++ "images"⟩,
   ⟨folderSrcAssets ++ "js", folderDistAssets ++ "js"⟩,
   ⟨folderSrcAssets ++ "libs", folderDistAssets ++ "libs"⟩,
   ⟨folderSrcAssets ++ "libs", folderDistAssets ++ "libs"⟩]

/-- The same pattern list with the duplicated libs pattern listed once. -/
def copyPatternsOnce : List CopyPattern :=
  [⟨folderSrcAssets ++ "images", folderDistAssets ++ "images"⟩,
   ⟨folderSrcAssets ++ "js", folderDistAssets ++ "js"⟩,
   ⟨folderSrcAssets ++ "libs", folderDistAssets ++ "libs"⟩]

/-- Remove every binding for `name` from an association list (the
overwrite half of "copy ... overwriting existing files"). -/
def removeFile {α : Type} : List (String × α) → String → List (String × α)
  | [], _ => []
  | (k, v) :: rest, name =>
    if k = name then removeFile rest name
    else (k, v) :: removeFile rest name

/-- Write `content` under `name`, overwriting any existing binding. -/
def writeFile {α : Type} (dir : List (String × α)) (name : String)
    (content : α) : List (String × α) :=
  removeFile dir name ++ [(name, content)]

/-- The state of the copy stage: the output directory tree built so far
and the warnings recorded so far. -/
structure CopyOutcome where
  outFs : List (String × DirTree)
  warnings : List String

/-- Modelled from the spec: one copy pattern applied to the source file
system. A missing source directory is a warning — the copy for that
pattern is skipped and the stage continues; an existing directory is
copied verbatim to the destination, overwriting. -/
def copyOne (srcFs : List (String × DirTree)) (acc : CopyOutcome)
    (pat : CopyPattern) : CopyOutcome :=
  match getFile srcFs pat.src with
  | none => ⟨acc.outFs, acc.warnings ++ [pat.src]⟩
  | some tree => ⟨writeFile acc.outFs pat.dst tree, acc.warnings⟩

/-- Runs the copy patterns in order, threading the `CopyOutcome` state. -/
def copyStageAux (srcFs : List (String × DirTree)) :
    CopyOutcome → List CopyPattern → CopyOutcome
  | acc, [] => acc
  | acc, pat :: rest => copyStageAux srcFs (copyOne srcFs acc pat) rest

/-- Modelled from the spec: the copy stage runs the configured patterns in
order over an initial output tree, starting with no warnings. -/
def copyStage (srcFs : List (String × DirTree)) (pats : List CopyPattern)
    (out0 : List (String × DirTree)) : CopyOutcome :=
  copyStageAux srcFs ⟨out0, []⟩ pats

/-- Modelled from the spec: the emission stage writes every produced asset
into the (possibly already populated) output directory, overwriting
existing files. -/
def writeOutputs : List (String × Css) → AssetMap → List (String × Css)
  | dir, [] => dir
  | dir, a :: rest => writeOutputs (writeFile dir a.1 a.2) rest

/-! Association-list lemmas shared by the claim theorems. -/

theorem getFile_append_of_some {α : Type} {l1 l2 : List (String × α)}
    {p : String} {v : α} (h : getFile l1 p = some v) :
    getFile (l1 ++ l2) p = some v := by
  induction l1 with
  | nil => simp [getFile] at h
  | cons e rest ih =>
    obtain ⟨k, w⟩ := e
    simp only [List.cons_append, getFile] at h ⊢
    by_cases hk : p = k
    · rw [if_pos hk] at h ⊢; exact h
    · rw [if_neg hk] at h ⊢; exact ih h

theorem getFile_append_of_none {α : Type} {l1 l2 : List (String × α)}
    {p : String} (h : getFile l1 p = none) :
    getFile (l1 ++ l2) p = getFile l2 p := by
  induction l1 with
  | nil => rfl
  | cons e rest ih =>
    obtain ⟨k, w⟩ := e
    simp only [List.cons_append, getFile] at h ⊢
    by_cases hk : p = k
    · rw [if_pos hk] at h; cases h
    · rw [if_neg hk] at h ⊢; exact ih h

theorem getFile_removeFile_self {α : Type} (l : List (String × α))
    (name : String) : getFile (removeFile l name) name = none := by
  induction l with
  | nil => rfl
  | cons e rest ih =>
    obtain ⟨k, v⟩ := e
    by_cases hk : k = name
    · simp only [removeFile, if_pos hk]; exact ih
    · simp only [removeFile, if_neg hk, getFile,
        if_neg (fun hh : name = k => hk hh.symm)]
      exact ih

theorem getFile_removeFile_ne {α : Type} {l : List (String × α)}
    {p name : String} (h : p ≠ name) :
    getFile (removeFile l name) p = getFile l p := by
  induction l with
  | nil => rfl
  | cons e rest ih =>
    obtain ⟨k, v⟩ := e
    by_cases hk : k = name
    · simp only [removeFile, if_pos hk, getFile,
        if_neg (fun hp : p = k => h (hp.trans hk))]
      exact ih
    · simp only [removeFile, if_neg hk, getFile]
      by_cases hp : p = k
      · rw [if_pos hp, if_pos hp]
      · rw [if_neg hp, if_neg hp]; exact ih

theorem getFile_writeFile_self {α : Type} (d : List (String × α))
    (n : String) (c : α) : getFile (writeFile d n c) n = some c := by
  unfold writeFile
  rw [getFile_append_of_none (getFile_removeFile_self d n)]
  simp [getFile]

theorem getFile_writeFile_ne {α : Type} {d : List (String × α)}
    {p n : String} (c : α) (h : p ≠ n) :
    getFile (writeFile d n c) p = getFile d p := by
  unfold writeFile
  cases hd : getFile (removeFile d n) p with
  | none =>
    rw [getFile_append_of_none hd]
    rw [getFile_removeFile_ne h] at hd
    simp only [getFile, if_neg h]
    exact hd.symm
  | some v =>
    rw [getFile_append_of_some hd]
    rw [getFile_removeFile_ne h] at hd
    exact hd.symm

theorem removeFile_append {α : Type} (l1 l2 : List (String × α))
    (n : String) :
    removeFile (l1 ++ l2) n = removeFile l1 n ++ removeFile l2 n := by
  induction l1 with
  | nil => rfl
  | cons e rest ih =>
    obtain ⟨k, v⟩ := e
    simp only [List.cons_append, removeFile]
    by_cases hk : k = n
    · rw [if_pos hk, if_pos hk]; exact ih
    · rw [if_neg hk, if_neg hk, List.cons_append]
      simp only [List.append_eq]
      rw [ih]

theorem removeFile_idem {α : Type} (l : List (String × α)) (n : String) :
    removeFile (removeFile l n) n = removeFile l n := by
  induction l with
  | nil => rfl
  | cons e rest ih =>
    obtain ⟨k, v⟩ := e
    by_cases hk : k = n
    · simp only [removeFile, if_pos hk]; exact ih
    · simp only [removeFile, if_neg hk]
      rw [ih]

theorem writeFile_writeFile_same {α : Type} (o : List (String × α))
    (d : String) (t : α) :
    writeFile (writeFile o d t) d t = writeFile o d t := by
  unfold writeFile
  rw [removeFile_append, removeFile_idem]
  simp [removeFile]

theorem getFile_writeOutputs_of_not_mem {p : String} (assets : AssetMap) :
    ∀ dir : List (String × Css), p ∉ assets.map Prod.fst →
    getFile (writeOutputs dir assets) p = getFile dir p := by
  induction assets with
  | nil => intro dir _; rfl
  | cons a rest ih =>
    intro dir hp
    obtain ⟨n, c⟩ := a
    simp only [List.map_cons, List.mem_cons] at hp
    push_neg at hp
    obtain ⟨hpn, hprest⟩ := hp
    simp only [writeOutputs]
    rw [ih (writeFile dir n c) hprest]
    exact getFile_writeFile_ne c hpn

theorem getFile_writeOutputs_indep {p : String} (assets : AssetMap) :
    ∀ d d' : List (String × Css), p ∈ assets.map Prod.fst →
    getFile (writeOutputs d assets) p = getFile (writeOutputs d' assets) p := by
  induction assets with
  | nil => intro d d' hp; simp at hp
  | cons a rest ih =>
    intro d d' hp
    obtain ⟨n, c⟩ := a
    simp only [writeOutputs]
    by_cases hr : p ∈ rest.map Prod.fst
    · exact ih (writeFile d n c) (writeFile d' n c) hr
    · have hpn : p = n := by
        simp only [List.map_cons, List.mem_cons] at hp
        rcases hp with h1 | h2
        · exact h1
        · exact absurd h2 hr
      subst hpn
      rw [getFile_writeOutputs_of_not_mem rest _ hr,
        getFile_writeOutputs_of_not_mem rest _ hr,
        getFile_writeFile_self, getFile_writeFile_self]

/-! Lemmas about the copy stage. -/

theorem copyOne_outFs_congr (srcFs : List (String × DirTree))
    (acc acc' : CopyOutcome) (pat : CopyPattern)
    (h : acc.outFs = acc'.outFs) :
    (copyOne srcFs acc pat).outFs = (copyOne srcFs acc' pat).outFs := by
  unfold copyOne
  cases hx : getFile srcFs pat.src <;> simp [h]

theorem copyStageAux_outFs_congr (srcFs : List (String × DirTree))
    (pats : List CopyPattern) :
    ∀ acc acc' : CopyOutcome, acc.outFs = acc'.outFs →
    (copyStageAux srcFs acc pats).outFs =
      (copyStageAux srcFs acc' pats).outFs := by
  induction pats with
  | nil => intro acc acc' h; exact h
  | cons pat rest ih =>
    intro acc acc' h
    simp only [copyStageAux]
    exact ih _ _ (copyOne_outFs_congr srcFs acc acc' pat h)

theorem copyStageAux_warnings_mono (srcFs : List (String × DirTree))
    (pats : List CopyPattern) :
    ∀ (acc : CopyOutcome) (w : String), w ∈ acc.warnings →
    w ∈ (copyStageAux srcFs acc pats).warnings := by
  induction pats with
  | nil => intro acc w h; exact h
  | cons pat rest ih =>
    intro acc w h
    simp only [copyStageAux]
    apply ih
    unfold copyOne
    split
    · exact List.mem_append_left _ h
    · exact h

theorem copyStageAux_append (srcFs : List (String × DirTree))
    (l1 l2 : List CopyPattern) :
    ∀ acc : CopyOutcome, copyStageAux srcFs acc (l1 ++ l2) =
      copyStageAux srcFs (copyStageAux srcFs acc l1) l2 := by
  induction l1 with
  | nil => intro acc; rfl
  | cons p rest ih =>
    intro acc
    simp only [List.cons_append, copyStageAux]
    exact ih _

theorem copyOne_dup_outFs (srcFs : List (String × DirTree))
    (acc : CopyOutcome) (pat : CopyPattern) :
    (copyOne srcFs (copyOne srcFs acc pat) pat).outFs =
      (copyOne srcFs acc pat).outFs := by
  unfold copyOne
  cases hx : getFile srcFs pat.src with
  | none => rfl
  | some tree => exact writeFile_writeFile_same acc.outFs pat.dst tree

/-! Lemmas about the RTL flip model and the extract stage. -/

theorem flipToken_eq_of_not_sensitive {t : String}
    (h : directionSensitive t = false) : flipToken t = t := by
  unfold flipToken
  cases h1 : getFile directionSwaps t with
  | some r =>
    exfalso
    unfold directionSensitive at h
    rw [h1] at h
    simp at h
  | none =>
    cases h2 : getFile (directionSwaps.map Prod.swap) t with
    | some l =>
      exfalso
      unfold directionSensitive at h
      rw [h1, h2] at h
      simp at h
    | none => rfl

theorem miniCssFilename_injective {a b : String}
    (h : miniCssFilename a = miniCssFilename b) : a = b := by
  unfold miniCssFilename at h
  have hd := congrArg String.data h
  simp only [String.data_append] at hd
  have h1 := List.append_cancel_right hd
  have h2 := List.append_cancel_left h1
  exact String.ext h2

theorem lookupAsset_extractStage (compile : String → Css)
    (entries : List String) :
    ∀ n : String, n ∈ entries →
    lookupAsset (extractStage compile entries) (miniCssFilename n) =
      some (compile n) := by
  induction entries with
  | nil => intro n h; simp at h
  | cons m rest ih =>
    intro n h
    simp only [extractStage, List.map_cons, lookupAsset, getFile]
    by_cases hx : miniCssFilename n = miniCssFilename m
    · rw [if_pos hx, miniCssFilename_injective hx]
    · rw [if_neg hx]
      rcases List.mem_cons.mp h with h1 | h2
      · exact absurd (congrArg miniCssFilename h1) hx
      · exact ih n h2

/-! Claim theorems. -/

/-- C1, counterexample: with the asset collection holding only
`css/bootstrap.min.css`, the first pair of `cssPairs` references the
absent `css/app.min.css`; the `GenerateRTL` hook does not skip it — it
fails (the indexing of the missing asset throws), so the build does not
complete successfully, the remaining pair is not processed, and no
skipped-pairs report exists. -/
theorem generateRTL_missing_asset_errors :
    generateRTL cssPairs [("css/bootstrap.min.css", ["color"])] =
      Except.error "css/app.min.css" := by
  rfl

/-- C1 (amended): for every RTL pair whose LTR source asset is absent from
the asset collection when the pair is reached, the `GenerateRTL` hook
raises an error naming that asset and the build fails; the pair is not
skipped, no later pair is processed, and no skipped-pair report is
produced. -/
theorem generateRTL_missing_ltr_fails (pair : CssPair)
    (rest : List CssPair) (assets : AssetMap)
    (h : lookupAsset assets pair.ltr = none) :
    generateRTL (pair :: rest) assets = Except.error pair.ltr := by
  simp only [generateRTL, h]

/-- C1 witness: the amended claim at the configured pair list over an
empty asset collection. -/
theorem generateRTL_missing_ltr_fails_witness :
    lookupAsset [] "css/app.min.css" = none ∧
    generateRTL cssPairs [] = Except.error "css/app.min.css" :=
  ⟨rfl,
   generateRTL_missing_ltr_fails
     ⟨"css/app.min.css", "css/app-rtl.min.css"⟩
     [⟨"css/bootstrap.min.css", "css/bootstrap-rtl.min.css"⟩] [] rfl⟩

/-- C2: with both rtlcss options at their defaults, the produced RTL text
has the same length as the LTR text, every token is the flip of the
corresponding LTR token, every token that is not direction-sensitive is
unchanged (the text is otherwise identical), and the spec's example holds:
`margin-left` becomes `margin-right`. -/
theorem rtl_differs_only_direction_sensitive (ltrCss : Css) :
    (rtlcssProcess ltrCss defaultRtlcssOptions).length = ltrCss.length ∧
    (∀ (i : Nat) (t : String), ltrCss[i]? = some t →
      (rtlcssProcess ltrCss defaultRtlcssOptions)[i]? =
        some (flipToken t)) ∧
    (∀ (i : Nat) (t : String), ltrCss[i]? = some t →
      directionSensitive t = false →
      (rtlcssProcess ltrCss defaultRtlcssOptions)[i]? = some t) ∧
    flipToken "margin-left" = "margin-right" := by
  have hproc : rtlcssProcess ltrCss defaultRtlcssOptions =
      ltrCss.map flipToken := rfl
  refine ⟨?_, ?_, ?_, rfl⟩
  · rw [hproc, List.length_map]
  · intro i t ht
    rw [hproc, List.getElem?_map, ht]
    rfl
  · intro i t ht hsens
    rw [hproc, List.getElem?_map, ht]
    exact congrArg some (flipToken_eq_of_not_sensitive hsens)

/-- C2 witness: on the two-token sheet `margin-left color`, the
non-sensitive token `color` is untouched and `margin-left` flips. -/
theorem rtl_differs_only_direction_sensitive_witness :
    ((["margin-left", "color"] : Css)[1]? = some "color") ∧
    directionSensitive "color" = false ∧
    (rtlcssProcess ["margin-left", "color"] defaultRtlcssOptions)[1]? =
      some "color" ∧
    flipToken "margin-left" = "margin-right" :=
  ⟨rfl, rfl,
   (rtl_differs_only_direction_sensitive ["margin-left", "color"]).2.2.1
     1 "color" rfl rfl,
   (rtl_differs_only_direction_sensitive ["margin-left", "color"]).2.2.2⟩

/-- C4: when the LTR asset of a pair exists, the `GenerateRTL` hook
applies the external flip to its text with exactly the options the source
passes — `autoRename: false, clean: false`, which are the spec defaults —
and registers the result as a new asset named the pair's rtl name. -/
theorem generateRTL_flip_defaults (pair : CssPair) (rest : List CssPair)
    (assets : AssetMap) (ltrCss : Css)
    (h : lookupAsset assets pair.ltr = some ltrCss) :
    generateRTL (pair :: rest) assets =
      generateRTL rest
        (emitAsset assets pair.rtl
          (rtlcssProcess ltrCss defaultRtlcssOptions)) ∧
    defaultRtlcssOptions.autoRename = false ∧
    defaultRtlcssOptions.clean = false := by
  refine ⟨?_, rfl, rfl⟩
  simp only [generateRTL, h]
  rfl

/-- C4 witness: the first configured pair over a collection in which its
LTR asset exists. -/
theorem generateRTL_flip_defaults_witness :
    lookupAsset [("css/app.min.css", ["margin-left"])] "css/app.min.css" =
      some ["margin-left"] ∧
    (generateRTL cssPairs [("css/app.min.css", ["margin-left"])] =
      generateRTL [⟨"css/bootstrap.min.css", "css/bootstrap-rtl.min.css"⟩]
        (emitAsset [("css/app.min.css", ["margin-left"])]
          "css/app-rtl.min.css"
          (rtlcssProcess ["margin-left"] defaultRtlcssOptions)) ∧
     defaultRtlcssOptions.autoRename = false ∧
     defaultRtlcssOptions.clean = false) :=
  ⟨rfl,
   generateRTL_flip_defaults ⟨"css/app.min.css", "css/app-rtl.min.css"⟩
     [⟨"css/bootstrap.min.css", "css/bootstrap-rtl.min.css"⟩]
     [("css/app.min.css", ["margin-left"])] ["margin-left"] rfl⟩

/-- C5: on a successful run, the `GenerateRTL` hook only extends the
asset collection — the result is the input collection plus the newly
registered RTL assets, so the LTR asset of every pair and every other
previously finalized asset is still present with unchanged content. -/
theorem generateRTL_preserves_assets (pairs : List CssPair) :
    ∀ assets m : AssetMap, generateRTL pairs assets = Except.ok m →
    (∃ extra, m = assets ++ extra) ∧
    ∀ (name : String) (c : Css), lookupAsset assets name = some c →
      lookupAsset m name = some c := by
  induction pairs with
  | nil =>
    intro assets m h
    simp only [generateRTL, Except.ok.injEq] at h
    subst h
    exact ⟨⟨[], (List.append_nil assets).symm⟩, fun name c hc => hc⟩
  | cons pair rest ih =>
    intro assets m h
    simp only [generateRTL] at h
    split at h
    · exact absurd h (by simp)
    · rename_i ltrCss hl
      obtain ⟨⟨extra, hm⟩, _⟩ := ih _ _ h
      constructor
      · refine ⟨(pair.rtl, rtlcssProcess ltrCss ⟨false, false⟩) :: extra, ?_⟩
        rw [hm]
        simp [emitAsset]
      · intro name c hc
        obtain ⟨_, hpres⟩ := ih _ _ h
        exact hpres name c (getFile_append_of_some hc)

/-- C5 witness: a concrete successful run in which both previously
finalized assets survive unchanged. -/
theorem generateRTL_preserves_assets_witness :
    generateRTL cssPairs
        [("css/app.min.css", ["margin-left"]),
         ("css/bootstrap.min.css", ["color"])] =
      Except.ok
        [("css/app.min.css", ["margin-left"]),
         ("css/bootstrap.min.css", ["color"]),
         ("css/app-rtl.min.css", ["margin-right"]),
         ("css/bootstrap-rtl.min.css", ["color"])] ∧
    lookupAsset
        [("css/app.min.css", ["margin-left"]),
         ("css/bootstrap.min.css", ["color"]),
         ("css/app-rtl.min.css", ["margin-right"]),
         ("css/bootstrap-rtl.min.css", ["color"])] "css/app.min.css" =
      some ["margin-left"] :=
  ⟨rfl,
   (generateRTL_preserves_assets cssPairs
       [("css/app.min.css", ["margin-left"]),
        ("css/bootstrap.min.css", ["color"])] _ rfl).2
     "css/app.min.css" ["margin-left"] rfl⟩

/-- C3: the extract stage produces exactly one output CSS asset per entry
point, each named by the deterministic template `css/<entryName>.min.css`;
for the configured entries `app`, `bootstrap`, `icons` the outputs are
`css/app.min.css`, `css/bootstrap.min.css`, `css/icons.min.css`. -/
theorem build_one_css_per_entry (compile : String → Css)
    (entries : List String) :
    (extractStage compile entries).length = entries.length ∧
    (extractStage compile entries).map Prod.fst =
      entries.map miniCssFilename ∧
    (extractStage compile entryNames).map Prod.fst =
      ["css/app.min.css", "css/bootstrap.min.css", "css/icons.min.css"] := by
  refine ⟨?_, ?_, rfl⟩
  · simp [extractStage]
  · rw [extractStage, List.map_map]
    rfl

/-- C6: the build pipeline hands the `GenerateRTL` stage the asset
collection produced after every entry point has been compiled and
extracted, so when any pair is processed the collection already contains
the finalized CSS output of every entry point. -/
theorem rtl_stage_after_all_css (compile : String → Css)
    (entries : List String) (pairs : List CssPair) :
    buildAssets compile entries pairs =
      generateRTL pairs (extractStage compile entries) ∧
    ∀ n : String, n ∈ entries →
      lookupAsset (extractStage compile entries) (miniCssFilename n) =
        some (compile n) :=
  ⟨rfl, lookupAsset_extractStage compile entries⟩

/-- C6 witness: with the configured entry points, the collection seen by
the RTL stage contains the `app` entry's finalized CSS. -/
theorem rtl_stage_after_all_css_witness :
    ("app" ∈ entryNames) ∧
    lookupAsset (extractStage (fun _ => (["body"] : Css)) entryNames)
        (miniCssFilename "app") = some ["body"] :=
  ⟨by decide,
   (rtl_stage_after_all_css (fun _ => ["body"]) entryNames cssPairs).2
     "app" (by decide)⟩

/-- C7: a copy pattern whose source directory is missing is skipped with a
warning and the stage continues: the resulting output tree is the one the
remaining patterns produce — as if the missing pattern were absent — and
the missing source is recorded in the warnings. -/
theorem copyStage_missing_dir_skipped (srcFs : List (String × DirTree))
    (pat : CopyPattern) (pre rest : List CopyPattern)
    (out0 : List (String × DirTree))
    (h : getFile srcFs pat.src = none) :
    pat.src ∈ (copyStage srcFs (pre ++ pat :: rest) out0).warnings ∧
    (copyStage srcFs (pre ++ pat :: rest) out0).outFs =
      (copyStage srcFs (pre ++ rest) out0).outFs := by
  unfold copyStage
  rw [copyStageAux_append, copyStageAux_append]
  have hcopy : copyOne srcFs (copyStageAux srcFs ⟨out0, []⟩ pre) pat =
      ⟨(copyStageAux srcFs ⟨out0, []⟩ pre).outFs,
       (copyStageAux srcFs ⟨out0, []⟩ pre).warnings ++ [pat.src]⟩ := by
    unfold copyOne
    rw [h]
  constructor
  · simp only [copyStageAux]
    rw [hcopy]
    exact copyStageAux_warnings_mono srcFs rest _ pat.src
      (List.mem_append_right _ (List.mem_singleton.mpr rfl))
  · simp only [copyStageAux]
    rw [hcopy]
    exact copyStageAux_outFs_congr srcFs rest _ _ rfl

/-- C7 witness: a single pattern over an empty source file system is
skipped with a warning and leaves the output tree untouched. -/
theorem copyStage_missing_dir_skipped_witness :
    getFile ([] : List (String × DirTree)) "./src/assets/images" = none ∧
    ("./src/assets/images" ∈
      (copyStage []
        ([] ++ (⟨"./src/assets/images", "./static/assets/images"⟩ :
          CopyPattern) :: []) []).warnings ∧
     (copyStage []
        ([] ++ (⟨"./src/assets/images", "./static/assets/images"⟩ :
          CopyPattern) :: []) []).outFs =
       (copyStage [] ([] ++ []) []).outFs) :=
  ⟨rfl,
   copyStage_missing_dir_skipped []
     ⟨"./src/assets/images", "./static/assets/images"⟩ [] [] [] rfl⟩

/-- C8: emission is idempotent — writing the produced assets a second
time into the output directory that the first run already populated
leaves every path with byte-identical content; the pipeline itself is a
pure function of its inputs, so identical inputs produce identical
assets. -/
theorem writeOutputs_idempotent (dir : List (String × Css))
    (assets : AssetMap) (path : String) :
    getFile (writeOutputs (writeOutputs dir assets) assets) path =
      getFile (writeOutputs dir assets) path := by
  by_cases hp : path ∈ assets.map Prod.fst
  · exact getFile_writeOutputs_indep assets _ dir hp
  · rw [getFile_writeOutputs_of_not_mem assets _ hp]

/-- C9: for every preprocessor, the build emits exactly the asset names
`css/app.min.css`, `css/bootstrap.min.css`, `css/icons.min.css` plus the
RTL names of the configured pair list, `css/app-rtl.min.css` and
`css/bootstrap-rtl.min.css`; the emitted name list contains
`css/icons.min.css` but no `css/icons-rtl.min.css`, since no pair names
it. -/
theorem buildAssets_rtl_names_exact (compile : String → Css) :
    (buildAssets compile entryNames cssPairs).map
        (fun m => m.map Prod.fst) =
      Except.ok
        ["css/app.min.css", "css/bootstrap.min.css", "css/icons.min.css",
         "css/app-rtl.min.css", "css/bootstrap-rtl.min.css"] ∧
    cssPairs.map CssPair.rtl =
      ["css/app-rtl.min.css", "css/bootstrap-rtl.min.css"] ∧
    (["css/app.min.css", "css/bootstrap.min.css", "css/icons.min.css",
      "css/app-rtl.min.css", "css/bootstrap-rtl.min.css"].contains
        "css/icons.min.css" = true) ∧
    (["css/app.min.css", "css/bootstrap.min.css", "css/icons.min.css",
      "css/app-rtl.min.css", "css/bootstrap-rtl.min.css"].contains
        "css/icons-rtl.min.css" = false) := by
  refine ⟨rfl, rfl, rfl, rfl⟩

/-- C10: the copy configuration lists the libs directory twice with
identical source and destination, and running the copy stage with the
duplicated pattern produces an output directory tree identical to running
it with the pattern listed once (the second copy overwrites the first
with the same bytes). -/
theorem copyStage_duplicate_libs_equiv :
    copyPatterns = copyPatternsOnce ++
      [⟨folderSrcAssets ++ "libs", folderDistAssets ++ "libs"⟩] ∧
    ∀ srcFs out0 : List (String × DirTree),
      (copyStage srcFs copyPatterns out0).outFs =
        (copyStage srcFs copyPatternsOnce out0).outFs := by
  refine ⟨rfl, ?_⟩
  intro srcFs out0
  simp only [copyStage, copyPatterns, copyPatternsOnce, copyStageAux]
  exact copyOne_dup_outFs srcFs _ _

end AdminBuild
